import Mathlib

/-!
Verification of the pairing / signaling-relay server in `src/server.js`.

The server keeps three pieces of shared state:
  * `waitingClients` — a JS array of sockets awaiting a partner
    (`push` appends, `pop` removes the last element,
    `splice(indexOf(ws), 1)` removes the first occurrence);
  * `connectedPairs` — a JS `Map` from socket to partner socket;
  * `clientIds` — a JS `Map` from socket to its string identifier.

JS `Map`s are modelled as insertion-ordered association lists, because the
code iterates `connectedPairs.entries()` and `clientIds.entries()` and the
first match in insertion order is what a `for … of` loop with an early
`return`/`break` observes.  Sockets are modelled as natural numbers.
-/

namespace Omgl

/-- Lookup in a JS `Map` modelled as an insertion-ordered association list:
returns the value of the first entry with the given key. -/
def mapGet {α : Type} : List (Nat × α) → Nat → Option α
  | [], _ => none
  | (k0, v0) :: rest, k => if k = k0 then some v0 else mapGet rest k

/-- JS `Map.set`: if the key is present its (first) entry is updated in
place, keeping its position in iteration order; otherwise the new entry is
appended at the end. -/
def mapSet {α : Type} : List (Nat × α) → Nat → α → List (Nat × α)
  | [], k, v => [(k, v)]
  | (k0, v0) :: rest, k, v =>
      if k = k0 then (k0, v) :: rest else (k0, v0) :: mapSet rest k v

/-- JS `Map.delete`: removes the entry with the given key (keys are unique
in a JS `Map`, so removing every entry with that key is the same thing). -/
def mapDelete {α : Type} : List (Nat × α) → Nat → List (Nat × α)
  | [], _ => []
  | (k0, v0) :: rest, k =>
      if k0 = k then mapDelete rest k else (k0, v0) :: mapDelete rest k

/-- JS `Map.has`. -/
def mapHas {α : Type} (m : List (Nat × α)) (k : Nat) : Bool :=
  (mapGet m k).isSome

/-- The keys of a well-formed JS `Map` are pairwise distinct. -/
def keysNodup {α : Type} (m : List (Nat × α)) : Prop :=
  (m.map Prod.fst).Nodup

/-- Parsed client envelopes, by their `type` discriminator.  `offer`,
`answer` and `ice-candidate` carry an opaque negotiation payload; `toss`,
`role` and `number` are the game payloads sent by `public/game.js` over the
same WebSocket; `other` stands for any further unrecognized `type`. -/
inductive ClientMsg where
  | join (previousId : Option String)
  | offer (payload : String)
  | answer (payload : String)
  | iceCandidate (payload : String)
  | reconnect (clientId : String)
  | toss (choice : String) (winner : String)
  | role (choice : String)
  | number (number : Int) (senderRole : String)
  | other (ty : String)
  deriving DecidableEq, Repr

/-- Messages the server sends to a client (the JSON envelopes built with
`JSON.stringify` in `server.js`; an `Option` field set to `none` models a
field that is absent from the serialized object, as `JSON.stringify`
omits fields whose value is `undefined`). -/
inductive ServerMsg where
  | clientIdMsg (clientId : String)
  | peerAssignment (isInitiator : Bool) (partnerId : Option String)
  | reconnectSuccess (isInitiator : Bool) (partnerId : Option String)
  | partnerDisconnected (temporary : Bool) (partnerId : Option String)
  | partnerReconnected (partnerId : String)
  | forwarded (msg : ClientMsg)
  deriving DecidableEq, Repr

/-- The shared mutable state of `server.js`: the waiting array, the
`connectedPairs` map, the `clientIds` map and the `nextClientId` counter. -/
structure ServerState where
  waitingClients : List Nat
  connectedPairs : List (Nat × Nat)
  clientIds : List (Nat × String)
  nextClientId : Nat
  deriving DecidableEq, Repr

/-- The data captured by the `setTimeout` closure in
`handleClientDisconnect`: the closed socket `ws`, the value of
`clientIds.get(ws)` at disconnect time, the partner socket, and the
10000 ms delay passed to `setTimeout`. -/
structure GraceTimer where
  ws : Nat
  disconnectedId : Option String
  partner : Nat
  delayMs : Nat
  deriving DecidableEq, Repr

/-- Truthiness of the `previousId` field as tested by
`if (previousId)` in `handleClientJoin`: `undefined`/`null` (absent) and
the empty string are falsy, every other string is truthy. -/
def truthyId : Option String → Bool
  | none => false
  | some s => !s.isEmpty

/-- The `wss.on connection` handler's state effect: issue the next
identifier `client-N`, bind it to the new socket, and send it back in a
`client-id` envelope. -/
def handleConnection (st : ServerState) (ws : Nat) :
    ServerState × List (Nat × ServerMsg) :=
  ({ st with nextClientId := st.nextClientId + 1,
             clientIds := mapSet st.clientIds ws
               ("client-" ++ toString st.nextClientId) },
   [(ws, ServerMsg.clientIdMsg ("client-" ++ toString st.nextClientId))])

/-- The `handleReconnect` function of `server.js`.  It first rebinds the
new socket to `previousId` in `clientIds`, then scans
`connectedPairs.entries()` in insertion order for the first entry whose
key socket is bound to `previousId`; on a match it replaces that socket by
`ws` in both directions and notifies both sides, otherwise it appends `ws`
to the waiting array. -/
def handleReconnect (st : ServerState) (ws : Nat) (previousId : String) :
    ServerState × List (Nat × ServerMsg) :=
  match st.connectedPairs.find?
      (fun kv => mapGet (mapSet st.clientIds ws previousId) kv.1 == some previousId) with
  | some (existingWs, partnerWs) =>
      ({ st with clientIds := mapSet st.clientIds ws previousId,
                 connectedPairs :=
                   mapSet (mapSet (mapDelete st.connectedPairs existingWs) ws partnerWs)
                     partnerWs ws },
       [(partnerWs, ServerMsg.partnerReconnected previousId),
        (ws, ServerMsg.reconnectSuccess true
          (mapGet (mapSet st.clientIds ws previousId) partnerWs))])
  | none =>
      ({ st with clientIds := mapSet st.clientIds ws previousId,
                 waitingClients := st.waitingClients ++ [ws] }, [])

/-- The `handleClientJoin` function of `server.js`.  A truthy `previousId`
routes to `handleReconnect`.  Otherwise, if the waiting array is nonempty
the partner is taken with `waitingClients.pop()` — the LAST element — the
`peer-assignment` envelopes are sent (joiner first, with
`isInitiator:true`), and both directed pairing entries are written;
if the array is empty the joiner is pushed onto it. -/
def handleClientJoin (st : ServerState) (ws : Nat) (previousId : Option String) :
    ServerState × List (Nat × ServerMsg) :=
  if truthyId previousId then handleReconnect st ws (previousId.getD "")
  else
    match st.waitingClients.getLast? with
    | some partnerWs =>
        ({ st with waitingClients := st.waitingClients.dropLast,
                   connectedPairs :=
                     mapSet (mapSet st.connectedPairs ws partnerWs) partnerWs ws },
         [(ws, ServerMsg.peerAssignment true (mapGet st.clientIds partnerWs)),
          (partnerWs, ServerMsg.peerAssignment false (mapGet st.clientIds ws))])
    | none =>
        ({ st with waitingClients := st.waitingClients ++ [ws] }, [])

/-- The `forwardSignalingMessage` function of `server.js`: the envelope is
relayed verbatim to `connectedPairs.get(sender)` if that partner exists,
and silently dropped otherwise. -/
def forwardSignalingMessage (st : ServerState) (sender : Nat) (message : ClientMsg) :
    ServerState × List (Nat × ServerMsg) :=
  match mapGet st.connectedPairs sender with
  | some partner => (st, [(partner, ServerMsg.forwarded message)])
  | none => (st, [])

/-- The `handleClientDisconnect` function of `server.js`, up to and
including the call to `setTimeout`.  The socket is spliced out of the
waiting array; if it was paired the partner gets a
`partner-disconnected temporary:true` notice and a grace timer is
scheduled (returned as the third component); if it was unpaired its
identifier is deleted right away and no timer is scheduled. -/
def handleClientDisconnect (st : ServerState) (ws : Nat) :
    ServerState × List (Nat × ServerMsg) × Option GraceTimer :=
  match mapGet st.connectedPairs ws with
  | some partner =>
      ({ st with waitingClients := st.waitingClients.erase ws },
       [(partner, ServerMsg.partnerDisconnected true (mapGet st.clientIds ws))],
       some { ws := ws, disconnectedId := mapGet st.clientIds ws,
              partner := partner, delayMs := 10000 })
  | none =>
      ({ st with waitingClients := st.waitingClients.erase ws,
                 clientIds := mapDelete st.clientIds ws }, [], none)

/-- The anonymous `setTimeout` callback inside `handleClientDisconnect`.
It first scans `clientIds.entries()` for a socket other than the closed
one bound to the disconnected identifier; if one exists (a reconnection
happened) it does nothing at all.  Otherwise it deletes the closed
socket's pairing entry, and — if the partner still has an entry — deletes
that too, notifies the partner with `partner-disconnected temporary:false`
(an envelope with no `partnerId` field), pushes the partner onto the
waiting array, and finally releases the closed socket's identifier. -/
def graceTimerFire (st : ServerState) (t : GraceTimer) :
    ServerState × List (Nat × ServerMsg) :=
  if st.clientIds.any (fun kv => some kv.2 == t.disconnectedId && kv.1 != t.ws) then
    (st, [])
  else if mapHas (mapDelete st.connectedPairs t.ws) t.partner then
    ({ st with connectedPairs := mapDelete (mapDelete st.connectedPairs t.ws) t.partner,
               waitingClients := st.waitingClients ++ [t.partner],
               clientIds := mapDelete st.clientIds t.ws },
     [(t.partner, ServerMsg.partnerDisconnected false none)])
  else
    ({ st with connectedPairs := mapDelete st.connectedPairs t.ws,
               clientIds := mapDelete st.clientIds t.ws }, [])

/-- The `ws.on message` handler.  The incoming bytes are fed to
`JSON.parse` with no surrounding try/catch: `none` models a payload on
which `JSON.parse` throws, and the resulting uncaught exception (which
terminates the Node process) is modelled as `Except.error ()`.  A parsed
envelope is dispatched on its `type`: `join`, `offer`/`answer`/
`ice-candidate` and `reconnect` have cases; every other type — including
the game types `toss`, `role` and `number` — falls through the `switch`,
which has no `default`, and is dropped. -/
def handleMessage (st : ServerState) (ws : Nat) (parsed : Option ClientMsg) :
    Except Unit (ServerState × List (Nat × ServerMsg)) :=
  match parsed with
  | none => Except.error ()
  | some msg =>
      Except.ok (match msg with
        | ClientMsg.join previousId => handleClientJoin st ws previousId
        | ClientMsg.offer _ => forwardSignalingMessage st ws msg
        | ClientMsg.answer _ => forwardSignalingMessage st ws msg
        | ClientMsg.iceCandidate _ => forwardSignalingMessage st ws msg
        | ClientMsg.reconnect clientId => handleReconnect st ws clientId
        | _ => (st, []))

/-- Whole-system state for running event traces: the server state, the
queue of pending grace timers (all `setTimeout` delays are the same
10000 ms, so pending timers fire in creation order), the log of all
envelopes sent so far, and whether an uncaught exception has killed the
process. -/
structure SysState where
  server : ServerState
  timers : List GraceTimer
  log : List (Nat × ServerMsg)
  crashed : Bool
  deriving DecidableEq, Repr

/-- Externally triggered events: a socket opens, a socket delivers a
message (`none` = bytes that do not parse as JSON), a socket closes, or
the oldest pending grace timer fires. -/
inductive SysEvent where
  | connect (ws : Nat)
  | clientMsg (ws : Nat) (raw : Option ClientMsg)
  | disconnect (ws : Nat)
  | fireTimer
  deriving DecidableEq, Repr

/-- One step of the event loop. -/
def stepEvent (s : SysState) (e : SysEvent) : SysState :=
  if s.crashed then s else
  match e with
  | SysEvent.connect ws =>
      let r := handleConnection s.server ws
      { s with server := r.1, log := s.log ++ r.2 }
  | SysEvent.clientMsg ws raw =>
      match handleMessage s.server ws raw with
      | Except.ok r => { s with server := r.1, log := s.log ++ r.2 }
      | Except.error _ => { s with crashed := true }
  | SysEvent.disconnect ws =>
      match handleClientDisconnect s.server ws with
      | (st', evs, some t) =>
          { s with server := st', log := s.log ++ evs, timers := s.timers ++ [t] }
      | (st', evs, none) =>
          { s with server := st', log := s.log ++ evs }
  | SysEvent.fireTimer =>
      match s.timers with
      | [] => s
      | t :: rest =>
          let r := graceTimerFire s.server t
          { s with server := r.1, timers := rest, log := s.log ++ r.2 }

/-- The initial state of the process: empty pool, no pairings, no
identifiers, `nextClientId = 1`. -/
def initState : SysState :=
  { server := { waitingClients := [], connectedPairs := [], clientIds := [], nextClientId := 1 },
    timers := [], log := [], crashed := false }

/-- Run a trace of events from the initial state. -/
def runTrace (evs : List SysEvent) : SysState :=
  evs.foldl stepEvent initState

/-! ### Lemmas about the JS `Map` model -/

theorem mapGet_mapSet {α : Type} (m : List (Nat × α)) (k k' : Nat) (v : α) :
    mapGet (mapSet m k v) k' = if k' = k then some v else mapGet m k' := by
  induction m with
  | nil => simp [mapSet, mapGet]
  | cons hd tl ih =>
      obtain ⟨k0, v0⟩ := hd
      by_cases hk : k = k0
      · subst hk
        simp only [mapSet, if_pos rfl, mapGet]
        by_cases h0 : k' = k <;> simp [h0]
      · simp only [mapSet, if_neg hk, mapGet, ih]
        by_cases h0 : k' = k0
        · have hne : ¬ k0 = k := by omega
          subst h0
          simp [hne]
        · simp [h0]

theorem mapGet_mapDelete {α : Type} (m : List (Nat × α)) (k k' : Nat) :
    mapGet (mapDelete m k) k' = if k' = k then none else mapGet m k' := by
  induction m with
  | nil => simp [mapDelete, mapGet]
  | cons hd tl ih =>
      obtain ⟨k0, v0⟩ := hd
      by_cases hk : k0 = k
      · subst hk
        have h1 : mapDelete ((k0, v0) :: tl) k0 = mapDelete tl k0 := by
          simp [mapDelete]
        rw [h1, ih]
        by_cases h0 : k' = k0 <;> simp [h0, mapGet]
      · have h1 : mapDelete ((k0, v0) :: tl) k = (k0, v0) :: mapDelete tl k := by
          simp [mapDelete, hk]
        rw [h1]
        simp only [mapGet, ih]
        by_cases h0 : k' = k0
        · have hne : ¬ k0 = k := by omega
          subst h0
          simp [hne]
        · simp [h0]

theorem mem_of_mapGet_eq_some {α : Type} {m : List (Nat × α)} {k : Nat} {v : α}
    (h : mapGet m k = some v) : (k, v) ∈ m := by
  induction m with
  | nil => simp [mapGet] at h
  | cons hd tl ih =>
      obtain ⟨k0, v0⟩ := hd
      simp only [mapGet] at h
      by_cases h0 : k = k0
      · rw [if_pos h0] at h
        have hv : v0 = v := Option.some.inj h
        subst hv
        rw [h0]
        exact List.mem_cons_self _ _
      · rw [if_neg h0] at h
        exact List.mem_cons_of_mem _ (ih h)

theorem mapGet_eq_some_of_mem {α : Type} {m : List (Nat × α)} {k : Nat} {v : α}
    (hnd : keysNodup m) (h : (k, v) ∈ m) : mapGet m k = some v := by
  induction m with
  | nil => simp at h
  | cons hd tl ih =>
      obtain ⟨k0, v0⟩ := hd
      simp only [keysNodup, List.map_cons, List.nodup_cons] at hnd
      rcases List.mem_cons.mp h with h | h
      · rw [Prod.mk.injEq] at h
        obtain ⟨rfl, rfl⟩ := h
        simp [mapGet]
      · have hk : ¬ k = k0 := fun he => hnd.1 (he ▸ List.mem_map.mpr ⟨(k, v), h, rfl⟩)
        simp only [mapGet, if_neg hk]
        exact ih hnd.2 h

theorem value_eq_of_mem_nodup {α : Type} {m : List (Nat × α)} {k : Nat} {v w : α}
    (hnd : keysNodup m) (hv : (k, v) ∈ m) (hw : (k, w) ∈ m) : v = w := by
  have h1 := mapGet_eq_some_of_mem hnd hv
  have h2 := mapGet_eq_some_of_mem hnd hw
  rw [h1] at h2
  exact Option.some.inj h2

/-! ### Invariants of the pairing table and waiting pool -/

/-- Symmetry of the pairing table: whenever the table maps `a` to `b` it
also maps `b` back to `a`. -/
def SymmetricPairs (m : List (Nat × Nat)) : Prop :=
  ∀ a b : Nat, mapGet m a = some b → mapGet m b = some a

/-- Entry-wise sufficient condition for `SymmetricPairs`, decidable on a
concrete table. -/
theorem symmetricPairs_of_forall_mem {m : List (Nat × Nat)}
    (h : ∀ kv ∈ m, mapGet m kv.2 = some kv.1) : SymmetricPairs m :=
  fun a b hab => h (a, b) (mem_of_mapGet_eq_some hab)

/-- Exclusivity of waiting-pool membership: no duplicates in the pool,
and no pool member is a key of the pairing table. -/
def PoolExclusive (st : ServerState) : Prop :=
  st.waitingClients.Nodup ∧
    ∀ c ∈ st.waitingClients, mapGet st.connectedPairs c = none

instance (st : ServerState) : Decidable (PoolExclusive st) := by
  unfold PoolExclusive
  infer_instance

instance {α : Type} [DecidableEq α] (m : List (Nat × α)) : Decidable (keysNodup m) := by
  unfold keysNodup
  infer_instance

/-- Recognizes a `partner-reconnected` envelope addressed to `c`. -/
def isPartnerReconnectedTo (c : Nat) (e : Nat × ServerMsg) : Bool :=
  e.1 == c &&
    match e.2 with
    | ServerMsg.partnerReconnected _ => true
    | _ => false

/-- Recognizes a `partner-disconnected` envelope with `temporary:false`
addressed to `c`. -/
def isPermDisconnectTo (c : Nat) (e : Nat × ServerMsg) : Bool :=
  e.1 == c &&
    match e.2 with
    | ServerMsg.partnerDisconnected temporary _ => !temporary
    | _ => false

/-! ### Claim C1 — waiting-pool pairing order -/

/-- C1 counterexample: the claim says a join with a non-empty pool pairs
with the OLDEST (head) member, the pool being a FIFO queue.  On the code,
after client 1 joins and client 2 issues a reconnect with an unknown
identifier the pool is `[1, 2]` (1 the oldest); when client 3 then joins,
`waitingClients.pop()` hands it client 2 — the NEWEST member — and
client 1 is left waiting, unpaired. -/
theorem C1_fifo_counterexample :
    (runTrace [SysEvent.connect 1, SysEvent.connect 2, SysEvent.connect 3,
        SysEvent.clientMsg 1 (some (ClientMsg.join none)),
        SysEvent.clientMsg 2 (some (ClientMsg.reconnect "ghost"))]).server.waitingClients
      = [1, 2] ∧
    (runTrace [SysEvent.connect 1, SysEvent.connect 2, SysEvent.connect 3,
        SysEvent.clientMsg 1 (some (ClientMsg.join none)),
        SysEvent.clientMsg 2 (some (ClientMsg.reconnect "ghost")),
        SysEvent.clientMsg 3 (some (ClientMsg.join none))]).server.waitingClients
      = [1] ∧
    mapGet (runTrace [SysEvent.connect 1, SysEvent.connect 2, SysEvent.connect 3,
        SysEvent.clientMsg 1 (some (ClientMsg.join none)),
        SysEvent.clientMsg 2 (some (ClientMsg.reconnect "ghost")),
        SysEvent.clientMsg 3 (some (ClientMsg.join none))]).server.connectedPairs 3
      = some 2 ∧
    mapGet (runTrace [SysEvent.connect 1, SysEvent.connect 2, SysEvent.connect 3,
        SysEvent.clientMsg 1 (some (ClientMsg.join none)),
        SysEvent.clientMsg 2 (some (ClientMsg.reconnect "ghost")),
        SysEvent.clientMsg 3 (some (ClientMsg.join none))]).server.connectedPairs 1
      = none := by
  decide

/-- C1 amended: enqueue appends to the tail, but the pairing step removes
the TAIL (`pop`), not the head — the pool is a LIFO stack and a join with
a non-empty pool is paired with the most-recently-enqueued member. -/
theorem C1_lifo_pool (st : ServerState) (ws p : Nat) (l : List Nat)
    (h : st.waitingClients = l ++ [p]) :
    (handleClientJoin st ws none).1.waitingClients = l ∧
    mapGet (handleClientJoin st ws none).1.connectedPairs ws = some p ∧
    mapGet (handleClientJoin st ws none).1.connectedPairs p = some ws ∧
    (handleClientJoin st ws none).2 =
      [(ws, ServerMsg.peerAssignment true (mapGet st.clientIds p)),
       (p, ServerMsg.peerAssignment false (mapGet st.clientIds ws))] := by
  have hlast : st.waitingClients.getLast? = some p := by
    rw [h]
    exact List.getLast?_concat _
  have hdrop : st.waitingClients.dropLast = l := by
    rw [h]
    exact List.dropLast_concat
  simp only [handleClientJoin, truthyId, Bool.false_eq_true, if_false, hlast, hdrop,
    mapGet_mapSet]
  refine ⟨by simp, ?_, by simp, by simp⟩
  by_cases hwp : ws = p <;> simp [hwp]

/-- C1 amended, witness at a concrete pool `[4, 7]`: the joiner 9 is
paired with 7, the last element. -/
theorem C1_lifo_pool_witness :
    (handleClientJoin ⟨[4, 7], [], [], 1⟩ 9 none).1.waitingClients = [4] ∧
    mapGet (handleClientJoin ⟨[4, 7], [], [], 1⟩ 9 none).1.connectedPairs 9 = some 7 ∧
    mapGet (handleClientJoin ⟨[4, 7], [], [], 1⟩ 9 none).1.connectedPairs 7 = some 9 ∧
    (handleClientJoin ⟨[4, 7], [], [], 1⟩ 9 none).2 =
      [(9, ServerMsg.peerAssignment true none),
       (7, ServerMsg.peerAssignment false none)] :=
  C1_lifo_pool ⟨[4, 7], [], [], 1⟩ 9 7 [4] rfl

/-! ### Claim C2 — game payloads are NOT relayed -/

/-- A state in which sockets 1 and 2 are paired, reached by two fresh
joins. -/
def pairedState12 : ServerState :=
  (runTrace [SysEvent.connect 1, SysEvent.connect 2,
    SysEvent.clientMsg 1 (some (ClientMsg.join none)),
    SysEvent.clientMsg 2 (some (ClientMsg.join none))]).server

/-- C2: the claim (and the spec, and the client in `public/game.js`) says
a game envelope such as a `number` message from a paired connection is
forwarded to the partner unmodified, exactly once.  The server's message
`switch` has cases only for `join`, `offer`, `answer`, `ice-candidate`
and `reconnect`, and no `default`: a `toss`, `role` or `number` envelope
from paired socket 1 produces NO message at all — partner 2 receives
nothing — while an `offer` from the same state is forwarded.  The client
sends the game envelopes over this very WebSocket and waits for them, so
this is a bug in `server.js`, not in the claim. -/
theorem C2_game_message_dropped :
    mapGet pairedState12.connectedPairs 1 = some 2 ∧
    handleMessage pairedState12 1 (some (ClientMsg.number 3 "batsman")) =
      Except.ok (pairedState12, []) ∧
    handleMessage pairedState12 1 (some (ClientMsg.toss "heads" "you")) =
      Except.ok (pairedState12, []) ∧
    handleMessage pairedState12 1 (some (ClientMsg.role "bat")) =
      Except.ok (pairedState12, []) ∧
    handleMessage pairedState12 1 (some (ClientMsg.offer "sdp")) =
      Except.ok (pairedState12, [(2, ServerMsg.forwarded (ClientMsg.offer "sdp"))]) := by
  refine ⟨by decide, rfl, rfl, rfl, rfl⟩

/-! ### Claim C5 — a superseded grace timer is a no-op -/

/-- C5: if, when a grace timer fires, the disconnected identifier is bound
in the registry to some socket other than the closed one (i.e. a
reconnection has superseded the timer), the callback mutates nothing —
pairing table, identifier registry and waiting pool are all untouched and
no message is sent. -/
theorem C5_superseded_timer_noop (st : ServerState) (t : GraceTimer) (c : Nat)
    (id : String)
    (hdid : t.disconnectedId = some id)
    (hbound : mapGet st.clientIds c = some id)
    (hc : c ≠ t.ws) :
    graceTimerFire st t = (st, []) := by
  have hmem : (c, id) ∈ st.clientIds := mem_of_mapGet_eq_some hbound
  have hany : st.clientIds.any
      (fun kv => some kv.2 == t.disconnectedId && kv.1 != t.ws) = true := by
    refine List.any_eq_true.mpr ⟨(c, id), hmem, ?_⟩
    simp [hdid, hc]
  simp [graceTimerFire, hany]

/-- C5 witness: socket 1's timer fires after socket 3 has taken over the
identifier `client-1`; the state is returned unchanged. -/
theorem C5_superseded_timer_noop_witness :
    graceTimerFire
      ⟨[], [(3, 2), (2, 3)], [(1, "client-1"), (2, "client-2"), (3, "client-1")], 4⟩
      ⟨1, some "client-1", 2, 10000⟩ =
    (⟨[], [(3, 2), (2, 3)], [(1, "client-1"), (2, "client-2"), (3, "client-1")], 4⟩, []) :=
  C5_superseded_timer_noop _ _ 3 "client-1" rfl (by decide) (by decide)

/-! ### Claim C8 — malformed payloads crash the process -/

/-- C8 counterexample: the claim says a payload that fails to parse is
ignored and the process survives.  `JSON.parse` is called with no
try/catch, so a parse failure throws out of the message handler; the
uncaught exception (modelled as `Except.error`) terminates the Node
process, as the crashed flag of the trace runner records. -/
theorem C8_parse_failure_counterexample :
    handleMessage ⟨[], [], [(1, "client-1")], 2⟩ 1 none = Except.error () ∧
    (runTrace [SysEvent.connect 1, SysEvent.clientMsg 1 none]).crashed = true := by
  exact ⟨rfl, by decide⟩

/-- C8 amended: an envelope that parses but carries an unrecognized
`type` is silently ignored (state unchanged, nothing sent, connection
kept), but a payload on which `JSON.parse` throws escapes the handler
uncaught and is fatal to the process. -/
theorem C8_unknown_type_ignored_parse_failure_fatal :
    (∀ (st : ServerState) (ws : Nat) (ty : String),
        handleMessage st ws (some (ClientMsg.other ty)) = Except.ok (st, [])) ∧
    (∀ (st : ServerState) (ws : Nat),
        handleMessage st ws none = Except.error ()) :=
  ⟨fun _ _ _ => rfl, fun _ _ => rfl⟩

/-! ### Claim C10 — reconnect-success always says initiator -/

/-- C10: whenever `handleReconnect` finds an existing pairing for the
presented identifier, the reconnecting socket is sent `reconnect-success`
with `isInitiator:true` — the value is hardcoded, independent of the role
the client held before — and the surviving partner is sent only a
`partner-reconnected` notice, an envelope that carries no role field at
all. -/
theorem C10_reconnect_initiator_true (st : ServerState)
    (ws existingWs partnerWs : Nat) (previousId : String)
    (hfind : st.connectedPairs.find?
        (fun kv => mapGet (mapSet st.clientIds ws previousId) kv.1 == some previousId)
      = some (existingWs, partnerWs)) :
    (handleReconnect st ws previousId).2 =
      [(partnerWs, ServerMsg.partnerReconnected previousId),
       (ws, ServerMsg.reconnectSuccess true
         (mapGet (mapSet st.clientIds ws previousId) partnerWs))] := by
  simp [handleReconnect, hfind]

/-- C10 witness: socket 2 held `isInitiator:false` in the original
pairing (it was popped from the pool), yet its replacement socket 3
reconnecting under `client-2` receives `isInitiator:true`. -/
theorem C10_reconnect_initiator_true_witness :
    (handleReconnect ⟨[], [(1, 2), (2, 1)], [(1, "client-1"), (2, "client-2")], 3⟩
        3 "client-2").2 =
      [(1, ServerMsg.partnerReconnected "client-2"),
       (3, ServerMsg.reconnectSuccess true (some "client-1"))] :=
  C10_reconnect_initiator_true _ 3 2 1 "client-2" (by decide)

/-! ### Claim C6 — expiry with no reconnect tears the pairing down -/

/-- C6: a paired socket `A` (mutually paired with `B`) closes; its
identifier `idA` is bound to no other socket when the grace timer fires
(no reconnection).  Then: at disconnect time `B` is notified
`partner-disconnected temporary:true`; the timer was set with the
10000 ms grace delay; at expiry both pairing entries are deleted, `A`'s
identifier is released from the registry, and `B` is appended to the
waiting pool and notified `partner-disconnected temporary:false`. -/
theorem C6_expiry_teardown (st st1 st2 : ServerState)
    (evs1 evs2 : List (Nat × ServerMsg)) (t : GraceTimer)
    (A B : Nat) (idA : String)
    (hAB : mapGet st.connectedPairs A = some B)
    (hBA : mapGet st.connectedPairs B = some A)
    (hne : A ≠ B)
    (hid : mapGet st.clientIds A = some idA)
    (hnore : ∀ kv ∈ st.clientIds, kv.2 = idA → kv.1 = A)
    (h1 : handleClientDisconnect st A = (st1, evs1, some t))
    (h2 : graceTimerFire st1 t = (st2, evs2)) :
    evs1 = [(B, ServerMsg.partnerDisconnected true (some idA))] ∧
    t.delayMs = 10000 ∧
    evs2 = [(B, ServerMsg.partnerDisconnected false none)] ∧
    mapGet st2.connectedPairs A = none ∧
    mapGet st2.connectedPairs B = none ∧
    mapGet st2.clientIds A = none ∧
    st2.waitingClients = st1.waitingClients ++ [B] := by
  have h1' : handleClientDisconnect st A =
      ({ st with waitingClients := st.waitingClients.erase A },
       [(B, ServerMsg.partnerDisconnected true (some idA))],
       some ⟨A, some idA, B, 10000⟩) := by
    simp [handleClientDisconnect, hAB, hid]
  rw [h1'] at h1
  simp only [Prod.mk.injEq, Option.some.injEq] at h1
  obtain ⟨e1, e2, e3⟩ := h1
  subst e1
  subst e2
  subst e3
  have hany : st.clientIds.any
      (fun kv => some kv.2 == some idA && kv.1 != A) = false := by
    rw [List.any_eq_false]
    intro kv hkv
    by_cases hv : kv.2 = idA
    · have hk1 : kv.1 = A := hnore kv hkv hv
      simp [hv, hk1]
    · simp [hv]
  have hBA' : B ≠ A := Ne.symm hne
  have hhasB : mapHas (mapDelete st.connectedPairs A) B = true := by
    simp [mapHas, mapGet_mapDelete, hBA', hBA]
  simp only [graceTimerFire, hany, hhasB, Bool.false_eq_true, if_false, if_true,
    Prod.mk.injEq] at h2
  obtain ⟨e4, e5⟩ := h2
  subst e4
  subst e5
  refine ⟨rfl, rfl, rfl, ?_, ?_, ?_, rfl⟩
  · simp [mapGet_mapDelete, hne]
  · simp [mapGet_mapDelete]
  · simp [mapGet_mapDelete]

/-- C6 witness: sockets 1 and 2 paired, 1 disconnects and nobody
re-presents `client-1`; the timer tears the pairing down and requeues 2. -/
theorem C6_expiry_teardown_witness :
    [(2, ServerMsg.partnerDisconnected true (some "client-1"))] =
      [(2, ServerMsg.partnerDisconnected true (some "client-1"))] ∧
    (10000 : Nat) = 10000 ∧
    [(2, ServerMsg.partnerDisconnected false none)] =
      [(2, ServerMsg.partnerDisconnected false none)] ∧
    mapGet (ServerState.mk [2] [] [(2, "client-2")] 3).connectedPairs 1 = none ∧
    mapGet (ServerState.mk [2] [] [(2, "client-2")] 3).connectedPairs 2 = none ∧
    mapGet (ServerState.mk [2] [] [(2, "client-2")] 3).clientIds 1 = none ∧
    (ServerState.mk [2] [] [(2, "client-2")] 3).waitingClients = [] ++ [2] :=
  C6_expiry_teardown
    ⟨[], [(1, 2), (2, 1)], [(1, "client-1"), (2, "client-2")], 3⟩
    ⟨[], [(1, 2), (2, 1)], [(1, "client-1"), (2, "client-2")], 3⟩
    ⟨[2], [], [(2, "client-2")], 3⟩
    [(2, ServerMsg.partnerDisconnected true (some "client-1"))]
    [(2, ServerMsg.partnerDisconnected false none)]
    ⟨1, some "client-1", 2, 10000⟩
    1 2 "client-1"
    (by decide) (by decide) (by decide) (by decide) (by decide) (by decide) (by decide)

/-- When `e` is the unique element of `l` satisfying `p`, `find?` returns
it. -/
theorem find?_eq_some_of_mem_unique {β : Type} (l : List β) (p : β → Bool) (e : β)
    (hmem : e ∈ l) (hp : p e = true)
    (huniq : ∀ x ∈ l, p x = true → x = e) :
    l.find? p = some e := by
  induction l with
  | nil => simp at hmem
  | cons hd tl ih =>
      by_cases hph : p hd = true
      · rw [List.find?_cons_of_pos _ hph]
        rw [huniq hd (List.mem_cons_self _ _) hph]
      · rw [List.find?_cons_of_neg _ (by simp [hph])]
        rcases List.mem_cons.mp hmem with h | h
        · exact absurd (h ▸ hp) hph
        · exact ih h (fun x hx hpx => huniq x (List.mem_cons_of_mem _ hx) hpx)

/-! ### Claim C4 — reconnect before the deadline preserves the pairing -/

/-- C4: sockets `A` and `B` are paired (with well-formed unique pairing
keys), `A` is the only socket bound to `idA`, and `W` is a fresh socket.
`A`'s socket closes, then `W` presents `idA` before the grace deadline,
then the grace timer fires.  Afterwards `B`'s partner is `W` (and `W`'s is
`B`), `B` has received exactly one `partner-reconnected` envelope, and `B`
has received no `partner-disconnected temporary:false` envelope. -/
theorem C4_reconnect_before_deadline (st st1 st2 st3 : ServerState)
    (evs1 evs2 evs3 : List (Nat × ServerMsg)) (t : GraceTimer)
    (A B W : Nat) (idA : String)
    (hKN : keysNodup st.connectedPairs)
    (hAB : mapGet st.connectedPairs A = some B)
    (hid : mapGet st.clientIds A = some idA)
    (huniq : ∀ kv ∈ st.clientIds, kv.2 = idA → kv.1 = A)
    (hW : mapGet st.connectedPairs W = none)
    (hWA : W ≠ A) (hWB : W ≠ B)
    (h1 : handleClientDisconnect st A = (st1, evs1, some t))
    (h2 : handleReconnect st1 W idA = (st2, evs2))
    (h3 : graceTimerFire st2 t = (st3, evs3)) :
    mapGet st3.connectedPairs B = some W ∧
    mapGet st3.connectedPairs W = some B ∧
    (evs1 ++ evs2 ++ evs3).countP (isPartnerReconnectedTo B) = 1 ∧
    (evs1 ++ evs2 ++ evs3).countP (isPermDisconnectTo B) = 0 := by
  have h1' : handleClientDisconnect st A =
      ({ st with waitingClients := st.waitingClients.erase A },
       [(B, ServerMsg.partnerDisconnected true (some idA))],
       some ⟨A, some idA, B, 10000⟩) := by
    simp [handleClientDisconnect, hAB, hid]
  rw [h1'] at h1
  simp only [Prod.mk.injEq, Option.some.injEq] at h1
  obtain ⟨e1, e2, e3⟩ := h1
  subst e1
  subst e2
  subst e3
  have hidsW : mapGet (mapSet st.clientIds W idA) W = some idA := by
    simp [mapGet_mapSet]
  have hidsA : mapGet (mapSet st.clientIds W idA) A = some idA := by
    simp [mapGet_mapSet, fun h : A = W => hWA h.symm, hid]
  have hfind : st.connectedPairs.find?
      (fun kv => mapGet (mapSet st.clientIds W idA) kv.1 == some idA)
      = some (A, B) := by
    refine find?_eq_some_of_mem_unique _ _ _ (mem_of_mapGet_eq_some hAB) ?_ ?_
    · simp [hidsA]
    · intro kv hkv hpkv
      have hkv1 : mapGet (mapSet st.clientIds W idA) kv.1 = some idA := by
        simpa using hpkv
      have hkW : kv.1 ≠ W := by
        intro hkW
        have : mapGet st.connectedPairs W = some kv.2 :=
          mapGet_eq_some_of_mem hKN (hkW ▸ hkv)
        rw [hW] at this
        exact Option.noConfusion this
      rw [mapGet_mapSet] at hkv1
      rw [if_neg hkW] at hkv1
      have hkA : kv.1 = A :=
        huniq (kv.1, idA) (mem_of_mapGet_eq_some hkv1) rfl
      have hkB : mapGet st.connectedPairs kv.1 = some kv.2 :=
        mapGet_eq_some_of_mem hKN (by rw [← Prod.mk.eta (p := kv)]; exact hkv)
      rw [hkA, hAB] at hkB
      have : B = kv.2 := Option.some.inj hkB
      rw [← Prod.mk.eta (p := kv), hkA, ← this]
  have h2' : handleReconnect
      { st with waitingClients := st.waitingClients.erase A } W idA =
      ({ st with waitingClients := st.waitingClients.erase A,
                 clientIds := mapSet st.clientIds W idA,
                 connectedPairs :=
                   mapSet (mapSet (mapDelete st.connectedPairs A) W B) B W },
       [(B, ServerMsg.partnerReconnected idA),
        (W, ServerMsg.reconnectSuccess true
          (mapGet (mapSet st.clientIds W idA) B))]) := by
    simp [handleReconnect, hfind]
  rw [h2'] at h2
  simp only [Prod.mk.injEq] at h2
  obtain ⟨e4, e5⟩ := h2
  subst e4
  subst e5
  have hany : (mapSet st.clientIds W idA).any
      (fun kv => some kv.2 == some idA && kv.1 != A) = true := by
    refine List.any_eq_true.mpr ⟨(W, idA), mem_of_mapGet_eq_some hidsW, ?_⟩
    simp [hWA]
  unfold graceTimerFire at h3
  dsimp only at h3
  rw [hany] at h3
  simp only [if_true, Prod.mk.injEq] at h3
  obtain ⟨e6, e7⟩ := h3
  subst e6
  subst e7
  refine ⟨by simp [mapGet_mapSet], by simp [mapGet_mapSet, hWB], ?_, ?_⟩
  · simp [isPartnerReconnectedTo, List.countP_cons, hWB]
  · simp [isPermDisconnectTo, List.countP_cons, hWB]

/-- C4 witness: sockets 1 and 2 paired, 1 disconnects, fresh socket 3
presents `client-1` before the deadline, then the timer fires. -/
theorem C4_reconnect_before_deadline_witness :
    mapGet (ServerState.mk []
        [(2, 3), (3, 2)]
        [(1, "client-1"), (2, "client-2"), (3, "client-1")] 3).connectedPairs 2
      = some 3 ∧
    mapGet (ServerState.mk []
        [(2, 3), (3, 2)]
        [(1, "client-1"), (2, "client-2"), (3, "client-1")] 3).connectedPairs 3
      = some 2 ∧
    ([(2, ServerMsg.partnerDisconnected true (some "client-1"))] ++
     [(2, ServerMsg.partnerReconnected "client-1"),
      (3, ServerMsg.reconnectSuccess true (some "client-2"))] ++
     ([] : List (Nat × ServerMsg))).countP (isPartnerReconnectedTo 2) = 1 ∧
    ([(2, ServerMsg.partnerDisconnected true (some "client-1"))] ++
     [(2, ServerMsg.partnerReconnected "client-1"),
      (3, ServerMsg.reconnectSuccess true (some "client-2"))] ++
     ([] : List (Nat × ServerMsg))).countP (isPermDisconnectTo 2) = 0 :=
  C4_reconnect_before_deadline
    ⟨[], [(1, 2), (2, 1)], [(1, "client-1"), (2, "client-2")], 3⟩
    ⟨[], [(1, 2), (2, 1)], [(1, "client-1"), (2, "client-2")], 3⟩
    ⟨[], [(2, 3), (3, 2)], [(1, "client-1"), (2, "client-2"), (3, "client-1")], 3⟩
    ⟨[], [(2, 3), (3, 2)], [(1, "client-1"), (2, "client-2"), (3, "client-1")], 3⟩
    [(2, ServerMsg.partnerDisconnected true (some "client-1"))]
    [(2, ServerMsg.partnerReconnected "client-1"),
     (3, ServerMsg.reconnectSuccess true (some "client-2"))]
    []
    ⟨1, some "client-1", 2, 10000⟩
    1 2 3 "client-1"
    (by decide) (by decide) (by decide) (by decide) (by decide) (by decide)
    (by decide) (by decide) (by decide) (by decide)

/-! ### Claim C3 — table symmetry is not an invariant -/

/-- C3 counterexample: in a reachable state the pairing table contains an
orphan half-pairing.  Sockets 1 and 2 pair, socket 3 joins the pool, and
then the already-paired socket 1 sends another plain join: `handleClientJoin`
pairs 1 with 3 and overwrites the entry 1 maps to 2, leaving the directed
entry 2 maps to 1 with no mirror — the final table maps 2 to 1 but 1 to 3. -/
theorem C3_orphan_counterexample :
    ¬ SymmetricPairs (runTrace [SysEvent.connect 1, SysEvent.connect 2,
        SysEvent.connect 3,
        SysEvent.clientMsg 1 (some (ClientMsg.join none)),
        SysEvent.clientMsg 2 (some (ClientMsg.join none)),
        SysEvent.clientMsg 3 (some (ClientMsg.join none)),
        SysEvent.clientMsg 1 (some (ClientMsg.join none))]).server.connectedPairs := by
  intro h
  have h21 := h 2 1 (by decide)
  exact absurd h21 (by decide)

/-! ### Claim C7 — duplicate pairing attempts are not rejected -/

/-- C7 counterexample: with 1 and 2 paired and 3 waiting (a reachable
state), a second plain join from the already-paired socket 1 is NOT a
no-op: peer-assignment envelopes are sent and 1's pairing entry is
overwritten from 2 to 3. -/
theorem C7_no_reject_counterexample :
    mapGet (runTrace [SysEvent.connect 1, SysEvent.connect 2, SysEvent.connect 3,
        SysEvent.clientMsg 1 (some (ClientMsg.join none)),
        SysEvent.clientMsg 2 (some (ClientMsg.join none)),
        SysEvent.clientMsg 3 (some (ClientMsg.join none))]).server.connectedPairs 1
      = some 2 ∧
    (handleClientJoin (runTrace [SysEvent.connect 1, SysEvent.connect 2,
        SysEvent.connect 3,
        SysEvent.clientMsg 1 (some (ClientMsg.join none)),
        SysEvent.clientMsg 2 (some (ClientMsg.join none)),
        SysEvent.clientMsg 3 (some (ClientMsg.join none))]).server 1 none).2
      = [(1, ServerMsg.peerAssignment true (some "client-3")),
         (3, ServerMsg.peerAssignment false (some "client-1"))] ∧
    mapGet (handleClientJoin (runTrace [SysEvent.connect 1, SysEvent.connect 2,
        SysEvent.connect 3,
        SysEvent.clientMsg 1 (some (ClientMsg.join none)),
        SysEvent.clientMsg 2 (some (ClientMsg.join none)),
        SysEvent.clientMsg 3 (some (ClientMsg.join none))]).server 1 none).1.connectedPairs 1
      = some 3 := by
  decide

/-! ### Claim C9 — pool membership exclusivity is not an invariant -/

/-- C9 counterexample: after sockets 1 and 2 pair, a second plain join
from the paired socket 1 finds the pool empty and pushes 1 onto it:
socket 1 is then simultaneously a waiting-pool member and a key of the
pairing table. -/
theorem C9_exclusivity_counterexample :
    ¬ PoolExclusive (runTrace [SysEvent.connect 1, SysEvent.connect 2,
        SysEvent.clientMsg 1 (some (ClientMsg.join none)),
        SysEvent.clientMsg 2 (some (ClientMsg.join none)),
        SysEvent.clientMsg 1 (some (ClientMsg.join none))]).server := by
  decide

/-- C3 amended: symmetry of the pairing table is NOT an invariant of all
reachable states (see the counterexample); what holds is per-operation
preservation under preconditions.  Join-pairing preserves symmetry when
neither the joiner nor the popped pool member is already paired;
reconnect-replacement preserves it when the reconnecting socket is
unpaired, the table has unique keys and no self-pairing; grace-expiry
teardown preserves it when the timer's pairing is still intact.  A join or
reconnect issued by an already-paired socket falls outside these
preconditions and can orphan the old partner's entry. -/
theorem C3_symmetry_preservation :
    (∀ (st : ServerState) (ws p : Nat) (l : List Nat),
        SymmetricPairs st.connectedPairs →
        st.waitingClients = l ++ [p] →
        mapGet st.connectedPairs ws = none →
        mapGet st.connectedPairs p = none →
        SymmetricPairs (handleClientJoin st ws none).1.connectedPairs) ∧
    (∀ (st : ServerState) (ws : Nat) (previousId : String),
        SymmetricPairs st.connectedPairs →
        keysNodup st.connectedPairs →
        (∀ kv ∈ st.connectedPairs, kv.1 ≠ kv.2) →
        mapGet st.connectedPairs ws = none →
        SymmetricPairs (handleReconnect st ws previousId).1.connectedPairs) ∧
    (∀ (st : ServerState) (t : GraceTimer),
        SymmetricPairs st.connectedPairs →
        mapGet st.connectedPairs t.ws = some t.partner →
        SymmetricPairs (graceTimerFire st t).1.connectedPairs) := by
  refine ⟨?_, ?_, ?_⟩
  · intro st ws p l hsym hpool hws hp
    have hlast : st.waitingClients.getLast? = some p := by
      rw [hpool]
      exact List.getLast?_concat _
    simp only [handleClientJoin, truthyId, Bool.false_eq_true, if_false, hlast]
    intro a b hab
    rw [mapGet_mapSet, mapGet_mapSet] at hab
    rw [mapGet_mapSet, mapGet_mapSet]
    by_cases hap : a = p
    · rw [if_pos hap] at hab
      have hbws : b = ws := (Option.some.inj hab).symm
      by_cases hwp : ws = p
      · rw [if_pos (hbws.trans hwp), hap, ← hwp]
      · rw [if_neg (fun h => hwp (hbws.symm.trans h)), if_pos hbws, hap]
    · rw [if_neg hap] at hab
      by_cases haw : a = ws
      · rw [if_pos haw] at hab
        have hbp : b = p := (Option.some.inj hab).symm
        rw [if_pos hbp, haw]
      · rw [if_neg haw] at hab
        have hba := hsym a b hab
        have hbp : b ≠ p := by
          intro h
          rw [h, hp] at hba
          exact Option.noConfusion hba
        have hbw : b ≠ ws := by
          intro h
          rw [h, hws] at hba
          exact Option.noConfusion hba
        rw [if_neg hbp, if_neg hbw]
        exact hba
  · intro st ws previousId hsym hnd hnoself hws
    cases hfind : st.connectedPairs.find?
        (fun kv => mapGet (mapSet st.clientIds ws previousId) kv.1 == some previousId) with
    | none =>
        simp only [handleReconnect, hfind]
        exact hsym
    | some ep =>
        obtain ⟨e, p⟩ := ep
        have hmem : (e, p) ∈ st.connectedPairs := List.mem_of_find?_eq_some hfind
        have hep : mapGet st.connectedPairs e = some p := mapGet_eq_some_of_mem hnd hmem
        have hpe : mapGet st.connectedPairs p = some e := hsym e p hep
        have hnep : e ≠ p := hnoself (e, p) hmem
        have hwse : ws ≠ e := by
          intro h
          rw [h, hep] at hws
          exact Option.noConfusion hws
        have hwsp : ws ≠ p := by
          intro h
          rw [h, hpe] at hws
          exact Option.noConfusion hws
        simp only [handleReconnect, hfind]
        intro a b hab
        rw [mapGet_mapSet, mapGet_mapSet, mapGet_mapDelete] at hab
        rw [mapGet_mapSet, mapGet_mapSet, mapGet_mapDelete]
        by_cases hap : a = p
        · rw [if_pos hap] at hab
          have hbws : b = ws := (Option.some.inj hab).symm
          rw [if_neg (fun h => hwsp (hbws.symm.trans h)), if_pos hbws, hap]
        · rw [if_neg hap] at hab
          by_cases haw : a = ws
          · rw [if_pos haw] at hab
            have hbp : b = p := (Option.some.inj hab).symm
            rw [if_pos hbp, haw]
          · rw [if_neg haw] at hab
            by_cases hae : a = e
            · rw [if_pos hae] at hab
              exact Option.noConfusion hab
            · rw [if_neg hae] at hab
              have hba := hsym a b hab
              have hbp : b ≠ p := by
                intro h
                rw [h, hpe] at hba
                exact hae (Option.some.inj hba).symm
              have hbw : b ≠ ws := by
                intro h
                rw [h, hws] at hba
                exact Option.noConfusion hba
              have hbe : b ≠ e := by
                intro h
                rw [h, hep] at hba
                exact hap (Option.some.inj hba).symm
              rw [if_neg hbp, if_neg hbw, if_neg hbe]
              exact hba
  · intro st t hsym hintact
    have hpw : mapGet st.connectedPairs t.partner = some t.ws := hsym _ _ hintact
    by_cases hrec : (st.clientIds.any
        (fun kv => some kv.2 == t.disconnectedId && kv.1 != t.ws)) = true
    · simp only [graceTimerFire]
      rw [if_pos hrec]
      exact hsym
    · simp only [graceTimerFire]
      rw [if_neg hrec]
      by_cases hhas : mapHas (mapDelete st.connectedPairs t.ws) t.partner = true
      · rw [if_pos hhas]
        dsimp only [ServerState.connectedPairs]
        intro a b hab
        rw [mapGet_mapDelete, mapGet_mapDelete] at hab
        rw [mapGet_mapDelete, mapGet_mapDelete]
        by_cases hap : a = t.partner
        · rw [if_pos hap] at hab
          exact Option.noConfusion hab
        · rw [if_neg hap] at hab
          by_cases haw : a = t.ws
          · rw [if_pos haw] at hab
            exact Option.noConfusion hab
          · rw [if_neg haw] at hab
            have hba := hsym a b hab
            have hbp : b ≠ t.partner := by
              intro h
              rw [h, hpw] at hba
              exact haw (Option.some.inj hba).symm
            have hbw : b ≠ t.ws := by
              intro h
              rw [h, hintact] at hba
              exact hap (Option.some.inj hba).symm
            rw [if_neg hbp, if_neg hbw]
            exact hba
      · rw [if_neg hhas]
        dsimp only [ServerState.connectedPairs]
        have hptw : t.partner = t.ws := by
          by_contra hne
          apply hhas
          simp [mapHas, mapGet_mapDelete, hne, hpw]
        intro a b hab
        rw [mapGet_mapDelete] at hab
        rw [mapGet_mapDelete]
        by_cases haw : a = t.ws
        · rw [if_pos haw] at hab
          exact Option.noConfusion hab
        · rw [if_neg haw] at hab
          have hba := hsym a b hab
          have hbw : b ≠ t.ws := by
            intro h
            rw [h, hintact] at hba
            exact haw ((Option.some.inj hba).symm.trans hptw)
          rw [if_neg hbw]
          exact hba

/-- C3 amended, witness: each of the three operations applied at a
concrete state satisfying its preconditions yields a symmetric table. -/
theorem C3_symmetry_preservation_witness :
    SymmetricPairs (handleClientJoin ⟨[3], [(1, 2), (2, 1)], [], 4⟩ 5 none).1.connectedPairs ∧
    SymmetricPairs (handleReconnect
        ⟨[], [(1, 2), (2, 1)], [(1, "client-1"), (2, "client-2")], 3⟩
        7 "client-1").1.connectedPairs ∧
    SymmetricPairs (graceTimerFire
        ⟨[], [(1, 2), (2, 1)], [(1, "client-1"), (2, "client-2")], 3⟩
        ⟨1, some "client-1", 2, 10000⟩).1.connectedPairs :=
  ⟨C3_symmetry_preservation.1 ⟨[3], [(1, 2), (2, 1)], [], 4⟩ 5 3 []
      (symmetricPairs_of_forall_mem (by decide)) rfl (by decide) (by decide),
   C3_symmetry_preservation.2.1 ⟨[], [(1, 2), (2, 1)], [(1, "client-1"), (2, "client-2")], 3⟩
      7 "client-1"
      (symmetricPairs_of_forall_mem (by decide)) (by decide) (by decide) (by decide),
   C3_symmetry_preservation.2.2 ⟨[], [(1, 2), (2, 1)], [(1, "client-1"), (2, "client-2")], 3⟩
      ⟨1, some "client-1", 2, 10000⟩
      (symmetricPairs_of_forall_mem (by decide)) (by decide)⟩

/-- C7 amended: `handleClientJoin` performs no already-paired check.
Whenever the pool is non-empty, a plain join from socket `ws` — even one
already paired with `q` — is paired with the popped member `p`
unconditionally: `ws`'s pairing entry is overwritten to `p`, the old
partner `q`'s own entry is left untouched (dangling), and the
`peer-assignment` envelopes are sent to both `ws` and `p`. -/
theorem C7_unconditional_pairing (st : ServerState) (ws q p : Nat) (l : List Nat)
    (hpool : st.waitingClients = l ++ [p])
    (_hpaired : mapGet st.connectedPairs ws = some q)
    (hpw : p ≠ ws) (hqp : q ≠ p) (hqw : q ≠ ws) :
    mapGet (handleClientJoin st ws none).1.connectedPairs ws = some p ∧
    mapGet (handleClientJoin st ws none).1.connectedPairs q
      = mapGet st.connectedPairs q ∧
    (handleClientJoin st ws none).2 =
      [(ws, ServerMsg.peerAssignment true (mapGet st.clientIds p)),
       (p, ServerMsg.peerAssignment false (mapGet st.clientIds ws))] := by
  have hlast : st.waitingClients.getLast? = some p := by
    rw [hpool]
    exact List.getLast?_concat _
  simp only [handleClientJoin, truthyId, Bool.false_eq_true, if_false, hlast]
  refine ⟨?_, ?_, by trivial⟩
  · rw [mapGet_mapSet, mapGet_mapSet, if_neg (fun h => hpw h.symm), if_pos rfl]
  · rw [mapGet_mapSet, mapGet_mapSet, if_neg hqp, if_neg hqw]

/-- C7 amended, witness: socket 1 is paired with 2 yet its second join
pairs it with the waiting socket 3 and sends both envelopes. -/
theorem C7_unconditional_pairing_witness :
    mapGet (handleClientJoin ⟨[3], [(1, 2), (2, 1)], [], 4⟩ 1 none).1.connectedPairs 1
      = some 3 ∧
    mapGet (handleClientJoin ⟨[3], [(1, 2), (2, 1)], [], 4⟩ 1 none).1.connectedPairs 2
      = some 1 ∧
    (handleClientJoin ⟨[3], [(1, 2), (2, 1)], [], 4⟩ 1 none).2 =
      [(1, ServerMsg.peerAssignment true none),
       (3, ServerMsg.peerAssignment false none)] :=
  C7_unconditional_pairing ⟨[3], [(1, 2), (2, 1)], [], 4⟩ 1 2 3 [] rfl
    (by decide) (by decide) (by decide) (by decide)

/-- C9 amended: waiting-pool exclusivity (no duplicate pool entries, no
socket both pooled and paired) is NOT an invariant of all reachable
states (see the counterexample): a further join or reconnect from a
socket that is already pooled or paired re-enters it.  What holds is
per-operation preservation when the acting socket is outside both
structures: a fresh join with empty or non-empty pool, a reconnect
(given a symmetric, well-keyed table, so that the replaced partner is
itself paired and hence outside the pool), a disconnect, and a
grace-timer expiry all preserve exclusivity. -/
theorem C9_exclusivity_preservation :
    (∀ (st : ServerState) (ws : Nat),
        PoolExclusive st → st.waitingClients = [] →
        mapGet st.connectedPairs ws = none →
        PoolExclusive (handleClientJoin st ws none).1) ∧
    (∀ (st : ServerState) (ws p : Nat) (l : List Nat),
        PoolExclusive st → st.waitingClients = l ++ [p] →
        ws ∉ st.waitingClients →
        mapGet st.connectedPairs ws = none →
        PoolExclusive (handleClientJoin st ws none).1) ∧
    (∀ (st : ServerState) (ws : Nat) (previousId : String),
        PoolExclusive st → ws ∉ st.waitingClients →
        mapGet st.connectedPairs ws = none →
        SymmetricPairs st.connectedPairs → keysNodup st.connectedPairs →
        PoolExclusive (handleReconnect st ws previousId).1) ∧
    (∀ (st : ServerState) (ws : Nat),
        PoolExclusive st →
        PoolExclusive (handleClientDisconnect st ws).1) ∧
    (∀ (st : ServerState) (t : GraceTimer),
        PoolExclusive st →
        PoolExclusive (graceTimerFire st t).1) := by
  refine ⟨?_, ?_, ?_, ?_, ?_⟩
  · intro st ws hexcl hempty hws
    have hlast : st.waitingClients.getLast? = none := by
      rw [hempty]
      rfl
    simp only [handleClientJoin, truthyId, Bool.false_eq_true, if_false, hlast]
    constructor
    · rw [hempty]
      exact List.nodup_singleton _
    · intro c hc
      rw [hempty] at hc
      simp only [List.nil_append, List.mem_singleton] at hc
      rw [hc]
      exact hws
  · intro st ws p l hexcl hpool hwspool hws
    have hlast : st.waitingClients.getLast? = some p := by
      rw [hpool]
      exact List.getLast?_concat _
    have hnd : (l ++ [p]).Nodup := hpool ▸ hexcl.1
    rw [List.nodup_append] at hnd
    simp only [handleClientJoin, truthyId, Bool.false_eq_true, if_false, hlast]
    constructor
    · dsimp only
      rw [hpool, List.dropLast_concat]
      exact hnd.1
    · intro c hc
      dsimp only at hc
      rw [hpool, List.dropLast_concat] at hc
      have hcl : c ∈ st.waitingClients := by
        rw [hpool]
        exact List.mem_append_left _ hc
      have hcw : c ≠ ws := fun h => hwspool (h ▸ hcl)
      have hcp : c ≠ p := fun h => hnd.2.2 hc (h ▸ List.mem_singleton_self p)
      dsimp only
      rw [mapGet_mapSet, mapGet_mapSet, if_neg hcp, if_neg hcw]
      exact hexcl.2 c hcl
  · intro st ws previousId hexcl hwspool hws hsym hknd
    cases hfind : st.connectedPairs.find?
        (fun kv => mapGet (mapSet st.clientIds ws previousId) kv.1 == some previousId) with
    | none =>
        simp only [handleReconnect, hfind]
        constructor
        · dsimp only
          rw [List.nodup_append]
          exact ⟨hexcl.1, List.nodup_singleton _,
            fun a ha hb => hwspool ((List.mem_singleton.mp hb) ▸ ha)⟩
        · intro c hc
          dsimp only at hc
          rcases List.mem_append.mp hc with hc | hc
          · exact hexcl.2 c hc
          · rw [List.mem_singleton] at hc
            rw [hc]
            exact hws
    | some ep =>
        obtain ⟨e, p⟩ := ep
        have hmem : (e, p) ∈ st.connectedPairs := List.mem_of_find?_eq_some hfind
        have hep : mapGet st.connectedPairs e = some p := mapGet_eq_some_of_mem hknd hmem
        have hpe : mapGet st.connectedPairs p = some e := hsym e p hep
        simp only [handleReconnect, hfind]
        constructor
        · exact hexcl.1
        · intro c hc
          dsimp only at hc ⊢
          have hcnone : mapGet st.connectedPairs c = none := hexcl.2 c hc
          have hcw : c ≠ ws := fun h => hwspool (h ▸ hc)
          have hcp : c ≠ p := by
            intro h
            rw [h, hpe] at hcnone
            exact Option.noConfusion hcnone
          rw [mapGet_mapSet, mapGet_mapSet, if_neg hcp, if_neg hcw, mapGet_mapDelete]
          by_cases hce : c = e
          · rw [if_pos hce]
          · rw [if_neg hce]
            exact hcnone
  · intro st ws hexcl
    cases hgw : mapGet st.connectedPairs ws with
    | some partner =>
        simp only [handleClientDisconnect, hgw]
        exact ⟨(List.erase_sublist _ _).nodup hexcl.1,
          fun c hc => hexcl.2 c (List.mem_of_mem_erase hc)⟩
    | none =>
        simp only [handleClientDisconnect, hgw]
        exact ⟨(List.erase_sublist _ _).nodup hexcl.1,
          fun c hc => hexcl.2 c (List.mem_of_mem_erase hc)⟩
  · intro st t hexcl
    by_cases hrec : (st.clientIds.any
        (fun kv => some kv.2 == t.disconnectedId && kv.1 != t.ws)) = true
    · simp only [graceTimerFire]
      rw [if_pos hrec]
      exact hexcl
    · simp only [graceTimerFire]
      rw [if_neg hrec]
      by_cases hhas : mapHas (mapDelete st.connectedPairs t.ws) t.partner = true
      · rw [if_pos hhas]
        obtain ⟨x, hx⟩ := Option.isSome_iff_exists.mp hhas
        rw [mapGet_mapDelete] at hx
        by_cases hptw : t.partner = t.ws
        · rw [if_pos hptw] at hx
          exact Option.noConfusion hx
        · rw [if_neg hptw] at hx
          have hpnotpool : t.partner ∉ st.waitingClients := by
            intro hmemp
            rw [hexcl.2 _ hmemp] at hx
            exact Option.noConfusion hx
          constructor
          · dsimp only
            rw [List.nodup_append]
            exact ⟨hexcl.1, List.nodup_singleton _,
              fun a ha hb => hpnotpool ((List.mem_singleton.mp hb) ▸ ha)⟩
          · intro c hc
            dsimp only at hc ⊢
            rcases List.mem_append.mp hc with hc | hc
            · have hcnone := hexcl.2 c hc
              rw [mapGet_mapDelete, mapGet_mapDelete]
              by_cases h1 : c = t.partner
              · rw [if_pos h1]
              · rw [if_neg h1]
                by_cases h2 : c = t.ws
                · rw [if_pos h2]
                · rw [if_neg h2]
                  exact hcnone
            · rw [List.mem_singleton] at hc
              rw [hc, mapGet_mapDelete, if_pos rfl]
      · rw [if_neg hhas]
        constructor
        · exact hexcl.1
        · intro c hc
          dsimp only at hc ⊢
          have hcnone := hexcl.2 c hc
          rw [mapGet_mapDelete]
          by_cases h2 : c = t.ws
          · rw [if_pos h2]
          · rw [if_neg h2]
            exact hcnone

/-- C9 amended, witness: each of the five operations applied at a
concrete state satisfying its preconditions preserves exclusivity. -/
theorem C9_exclusivity_preservation_witness :
    PoolExclusive (handleClientJoin ⟨[], [(1, 2), (2, 1)], [], 4⟩ 5 none).1 ∧
    PoolExclusive (handleClientJoin ⟨[3], [(1, 2), (2, 1)], [], 4⟩ 5 none).1 ∧
    PoolExclusive (handleReconnect
        ⟨[4], [(1, 2), (2, 1)], [(1, "client-1"), (2, "client-2")], 3⟩
        7 "client-1").1 ∧
    PoolExclusive (handleClientDisconnect
        ⟨[3], [(1, 2), (2, 1)], [(1, "client-1"), (2, "client-2")], 4⟩ 1).1 ∧
    PoolExclusive (graceTimerFire
        ⟨[], [(1, 2), (2, 1)], [(1, "client-1"), (2, "client-2")], 3⟩
        ⟨1, some "client-1", 2, 10000⟩).1 :=
  ⟨C9_exclusivity_preservation.1 ⟨[], [(1, 2), (2, 1)], [], 4⟩ 5
      (by decide) rfl (by decide),
   C9_exclusivity_preservation.2.1 ⟨[3], [(1, 2), (2, 1)], [], 4⟩ 5 3 []
      (by decide) rfl (by decide) (by decide),
   C9_exclusivity_preservation.2.2.1
      ⟨[4], [(1, 2), (2, 1)], [(1, "client-1"), (2, "client-2")], 3⟩ 7 "client-1"
      (by decide) (by decide) (by decide)
      (symmetricPairs_of_forall_mem (by decide)) (by decide),
   C9_exclusivity_preservation.2.2.2.1
      ⟨[3], [(1, 2), (2, 1)], [(1, "client-1"), (2, "client-2")], 4⟩ 1
      (by decide),
   C9_exclusivity_preservation.2.2.2.2
      ⟨[], [(1, 2), (2, 1)], [(1, "client-1"), (2, "client-2")], 3⟩
      ⟨1, some "client-1", 2, 10000⟩
      (by decide)⟩

end Omgl


